import Mathlib

/-!
Shallow embedding of the files_manager service (Express + MongoDB + Redis).

The repository's controllers are translated into pure Lean functions over an
explicit application state: the Redis session store becomes an association
list with TTLs, the two MongoDB collections (`users`, `files`) become lists
of documents, the on-disk content store becomes an association list from
paths to byte strings, and the Bull queue becomes a list of jobs.
Nondeterministic inputs of a request (the generated UUID filename, the
document id produced by the store on insert, fresh tokens, filesystem
failure) are passed as explicit parameters.  JavaScript string truthiness
(`undefined` and `""` are falsy) is modeled by `strVal`; the duck-typed
`parentId` values (the number `0` as root sentinel versus string ids) are
modeled by `JVal`.  Base64 decoding and SHA1 are modeled as injective
tagging functions on abstract byte strings, since no verified property
depends on their arithmetic.
-/

namespace FilesManager

/-- JavaScript values that flow through the `parentId` field: either a JSON
number (the root sentinel `0` is `num 0`) or a string id.  MongoDB equality
never identifies a number with a string, and JavaScript strict equality
(`!==`) likewise distinguishes them. -/
inductive JVal where
  | num (n : Int)
  | str (s : String)
deriving DecidableEq, Repr

/-- A document of the `files` collection, as written by `postUpload`:
`_id` is the id generated on insert, `userId` the owner, `parentId` the raw
body value (default number 0), and `localPath` the on-disk storage
reference (present exactly for file/image documents). -/
structure FileDoc where
  oid : String
  userId : String
  name : String
  ftype : String
  isPublic : Bool
  parentId : JVal
  localPath : Option String
deriving DecidableEq, Repr

/-- A document of the `users` collection: `password` stores the SHA1 digest. -/
structure UserDoc where
  oid : String
  email : String
  password : String
deriving DecidableEq, Repr

/-- A Bull queue job enqueued for image uploads: `{ userId, fileId }`. -/
structure Job where
  userId : String
  fileId : String
deriving DecidableEq, Repr

/-- The MongoDB database: the two collections used by the application. -/
structure DB where
  users : List UserDoc
  files : List FileDoc
deriving DecidableEq, Repr

/-- The Redis session store: entries `(key, value, ttl-in-seconds)`. -/
abbrev Session := List (String × String × Nat)

/-- `redisClient.get`: the value stored under a key, if any. -/
def sessionGet (s : Session) (k : String) : Option String :=
  match s.find? (fun e => e.1 == k) with
  | some e => some e.2.1
  | none => none

/-- The TTL recorded for a key, if the key is present. -/
def sessionTTL (s : Session) (k : String) : Option Nat :=
  match s.find? (fun e => e.1 == k) with
  | some e => some e.2.2
  | none => none

/-- `redisClient.set` (SETEX): store a value under a key with a TTL,
replacing any previous entry for that key. -/
def sessionSet (s : Session) (k v : String) (ttl : Nat) : Session :=
  (k, v, ttl) :: s.filter (fun e => e.1 != k)

/-- `redisClient.del`: drop the entry for a key. -/
def sessionDel (s : Session) (k : String) : Session :=
  s.filter (fun e => e.1 != k)

/-- The full application state threaded through the handlers: session store,
database, content-store disk (path to content, newest write first), and the
Bull file queue. -/
structure AppState where
  session : Session
  db : DB
  disk : List (String × String)
  queue : List Job
deriving DecidableEq, Repr

/-- `fs.existsSync` / `fs.readFileSync` combined: content stored under a
path (the newest write shadows older ones). -/
def diskGet (disk : List (String × String)) (p : String) : Option String :=
  match disk.find? (fun e => e.1 == p) with
  | some e => some e.2
  | none => none

/-- JavaScript truthiness for an optional string header / body / query
field: `undefined` and `""` are falsy, every other string is kept. -/
def strVal : Option String → Option String
  | none => none
  | some s => if s == "" then none else some s

/-- The Redis key for a token: `auth_<token>`. -/
def authKey (t : String) : String := "auth_" ++ t

/-- A hexadecimal character (either case). -/
def isHexChar (c : Char) : Bool :=
  c.isDigit || (97 ≤ c.toNat && c.toNat ≤ 102) || (65 ≤ c.toNat && c.toNat ≤ 70)

/-- A string accepted by the `ObjectId` constructor of mongodb 3.x:
24 hexadecimal characters.  Any other string makes `ObjectId(...)` throw.
(Implemented over the character list so that it reduces definitionally.) -/
def isValidObjectId (s : String) : Bool :=
  s.data.length == 24 && s.data.all isHexChar

/-- `String.startsWith`, implemented over the character lists. -/
def strStartsWith (s p : String) : Bool :=
  p.data.isPrefixOf s.data

/-- `String.endsWith`, implemented over the character lists. -/
def strEndsWith (s p : String) : Bool :=
  p.data.reverse.isPrefixOf s.data.reverse

/-- Split a character list at every occurrence of a separator. -/
def splitCharAux (sep : Char) : List Char → List Char → List (List Char)
  | [], acc => [acc.reverse]
  | c :: rest, acc =>
    if c == sep then acc.reverse :: splitCharAux sep rest []
    else splitCharAux sep rest (c :: acc)

/-- `String.split` on a single-character separator (the source only splits
on a space and on a colon), implemented over the character lists. -/
def splitChar (sep : Char) (s : String) : List String :=
  (splitCharAux sep s.data []).map String.mk

/-- `ObjectId(v)` applied to a raw `parentId` body value: a valid 24-hex
string maps to itself (ids are kept as their string rendering, matching the
`toString` round trip used everywhere in the controllers); any other string
throws (`none`); a number does not throw — the mongodb 3.x constructor
treats it as a timestamp and generates a fresh id, modeled as a tagged
string disjoint from every stored 24-hex id. -/
def objectIdOf : JVal → Option String
  | .str s => if isValidObjectId s then some s else none
  | .num n => some ("generated_oid_" ++ toString n)

/-- `Buffer.from(s, base64)` modeled as an injection on abstract byte
strings; no claim depends on the base64 arithmetic itself, only on which
bytes are written where. -/
def decodeBase64 (s : String) : String := "b64_" ++ s

/-- The `sha1` digest, modeled as an injective tag; only equality of
digests is ever observed by the controllers. -/
def sha1 (s : String) : String := "sha1_" ++ s

/-- The accepted `type` values of `POST /files`. -/
def acceptedTypes : List String := ["folder", "file", "image"]

/-- The storage root: `process.env.FOLDER_PATH || /tmp/files_manager`
(default configuration). -/
def folderPath : String := "/tmp/files_manager"

/-- The node representation returned by the file endpoints:
`{ id, userId, name, type, isPublic, parentId }` — `localPath` is never
exposed. -/
structure NodeRepr where
  id : String
  userId : String
  name : String
  ftype : String
  isPublic : Bool
  parentId : JVal
deriving DecidableEq, Repr

/-- JSON bodies produced by the handlers. -/
inductive JBody where
  | err (msg : String)
  | node (n : NodeRepr)
  | nodes (l : List NodeRepr)
  | idEmail (id email : String)
  | token (t : String)
deriving DecidableEq, Repr

/-- An HTTP outcome: a JSON response, a raw payload (`res.send` with a
content type), an empty response (`res.status(..).end()`), or a crash — an
exception thrown outside every try/catch, so that no response is ever sent
for the request. -/
inductive HResp where
  | json (status : Nat) (body : JBody)
  | payload (contentType : String) (content : String)
  | noContent (status : Nat)
  | crash (msg : String)
deriving DecidableEq, Repr

/-- Project a stored document to its response representation. -/
def toRepr (f : FileDoc) : NodeRepr :=
  { id := f.oid, userId := f.userId, name := f.name, ftype := f.ftype,
    isPublic := f.isPublic, parentId := f.parentId }

/-- The 401 body shared by every authentication failure. -/
def unauthorized : HResp := .json 401 (.err "Unauthorized")

/-- The 404 body shared by every not-found / access-denied outcome. -/
def notFound : HResp := .json 404 (.err "Not found")

/-- `mime.lookup(name)`: the content type inferred from the file name
extension.  A small executable fragment of the mime-types table, enough
for every name used in this development; unknown extensions yield `none`
and the caller falls back to application/octet-stream. -/
def mimeLookup (name : String) : Option String :=
  if strEndsWith name ".png" then some "image/png"
  else if strEndsWith name ".txt" then some "text/plain"
  else if strEndsWith name ".pdf" then some "application/pdf"
  else none

/-! ## UsersController -/

/-- `UsersController.postNew` (`POST /users`): validate email and password,
reject duplicate emails, insert `{ email, password: sha1(password) }` and
answer 201 `{ id, email }`.  `newId` is the id generated by the store. -/
def postNew (st : AppState) (email password : Option String) (newId : String) :
    HResp × AppState :=
  match strVal email with
  | none => (.json 400 (.err "Missing email"), st)
  | some e =>
  match strVal password with
  | none => (.json 400 (.err "Missing password"), st)
  | some pw =>
  match st.db.users.find? (fun u => u.email == e) with
  | some _ => (.json 400 (.err "Already exist"), st)
  | none =>
    (.json 201 (.idEmail newId e),
     { st with db := { st.db with
         users := st.db.users ++ [{ oid := newId, email := e, password := sha1 pw }] } })

/-- `UsersController.getMe` (`GET /users/me`, part_001): the module imports
only `sha1` and `dbClient`; the identifier `redisClient` used by the line
`const userId = await redisClient.get(key)` is not bound anywhere in the
module, so every execution that passes the token-presence check throws a
`ReferenceError` before any response is produced (an unhandled rejection —
the lookup and the 200/401 answers further down are unreachable). -/
def usersGetMe (st : AppState) (token : Option String) : HResp :=
  match strVal token with
  | none => unauthorized
  | some _ =>
    let _ := st
    .crash "ReferenceError: redisClient is not defined"

/-! ## AuthController -/

/-- The user that `AuthController.getConnect` finds for an Authorization
header: parse `Basic base64(email:password)`, reject a missing or
non-Basic header and empty credentials, then look up
`{ email, password: sha1(password) }`. -/
def connectUser (users : List UserDoc) (authHeader : Option String) : Option UserDoc :=
  match authHeader with
  | none => none
  | some h =>
    if !(strStartsWith h "Basic ") then none
    else
      let b64 := (splitChar (Char.ofNat 32) h).getD 1 ""
      let credentials := decodeBase64 b64
      let parts := splitChar (Char.ofNat 58) credentials
      let email := parts.getD 0 ""
      let password := parts.getD 1 ""
      if email == "" || password == "" then none
      else users.find? (fun u => u.email == email && u.password == sha1 password)

/-- `AuthController.getConnect` (`GET /connect`): on failure 401; on
success generate a token (`newToken`, the fresh uuid), store
`auth_<token> -> userId` with an 86400-second TTL, answer 200 `{ token }`. -/
def getConnect (st : AppState) (authHeader : Option String) (newToken : String) :
    HResp × AppState :=
  match connectUser st.db.users authHeader with
  | none => (unauthorized, st)
  | some user =>
    (.json 200 (.token newToken),
     { st with session := sessionSet st.session (authKey newToken) user.oid 86400 })

/-- `AuthController.getDisconnect` (`GET /disconnect`): 401 when the token
header is missing or does not resolve; otherwise delete the Redis key and
answer 204 with no body. -/
def getDisconnect (st : AppState) (token : Option String) : HResp × AppState :=
  match strVal token with
  | none => (unauthorized, st)
  | some t =>
  match sessionGet st.session (authKey t) with
  | none => (unauthorized, st)
  | some _ =>
    (.noContent 204, { st with session := sessionDel st.session (authKey t) })

/-! ## FilesController: upload -/

/-- The request body and token of `POST /files`; absent fields are `none`
(`parentId` defaults to the number 0 and `isPublic` to false inside the
handler, as in the destructuring defaults of the source). -/
structure UploadReq where
  token : Option String
  name : Option String
  ftype : Option String
  parentId : Option JVal
  isPublic : Option Bool
  data : Option String
deriving DecidableEq, Repr

/-- The parent validation step of `postUpload` (identical in part_000 and
part_005): skipped when `parentId !== 0`; otherwise `ObjectId(parentId)`
throwing or the lookup missing gives 400 "Parent not found", and a parent
that is not a folder gives 400 "Parent is not a folder".  `none` means the
check passed. -/
def parentCheck (files : List FileDoc) (pid : JVal) : Option HResp :=
  if pid == JVal.num 0 then none
  else
    match objectIdOf pid with
    | none => some (.json 400 (.err "Parent not found"))
    | some oid =>
      match files.find? (fun f => f.oid == oid) with
      | none => some (.json 400 (.err "Parent not found"))
      | some parent =>
        if parent.ftype != "folder" then some (.json 400 (.err "Parent is not a folder"))
        else none

/-- `FilesController.postUpload` of part_005 (the newer version, with the
Bull queue).  `newUuid` is the uuid chosen for the disk filename, `newId`
the id generated by the document insert, and `fsError` signals a thrown
`fs` call (mkdir/write), which the source converts to a 500.  The
validation chain (token, name, type, data, parent), the folder branch, the
disk write followed by the metadata insert, and the enqueue of
`{ userId, fileId }` for images mirror the source line by line; the
un-guarded `ObjectId(userId)` of the document construction crashes on a
malformed session value. -/
def postUpload_v5 (st : AppState) (req : UploadReq) (newUuid newId : String)
    (fsError : Bool) : HResp × AppState :=
  match strVal req.token with
  | none => (unauthorized, st)
  | some t =>
  match sessionGet st.session (authKey t) with
  | none => (unauthorized, st)
  | some userId =>
  match strVal req.name with
  | none => (.json 400 (.err "Missing name"), st)
  | some name =>
  match strVal req.ftype with
  | none => (.json 400 (.err "Missing type"), st)
  | some ty =>
  if !(acceptedTypes.contains ty) then (.json 400 (.err "Missing type"), st)
  else if (strVal req.data).isNone && ty != "folder" then
    (.json 400 (.err "Missing data"), st)
  else
    match parentCheck st.db.files (req.parentId.getD (JVal.num 0)) with
    | some r => (r, st)
    | none =>
      if !(isValidObjectId userId) then
        (.crash "BSONTypeError: ObjectId on session value", st)
      else
        let pub := req.isPublic.getD false
        if ty == "folder" then
          let doc : FileDoc :=
            { oid := newId, userId := userId, name := name, ftype := ty,
              isPublic := pub, parentId := req.parentId.getD (JVal.num 0), localPath := none }
          (.json 201 (.node { id := newId, userId := userId, name := name,
                              ftype := ty, isPublic := pub, parentId := req.parentId.getD (JVal.num 0) }),
           { st with db := { st.db with files := st.db.files ++ [doc] } })
        else if fsError then (.json 500 (.err "Internal server error"), st)
        else
          let lp := folderPath ++ "/" ++ newUuid
          let content := decodeBase64 ((strVal req.data).getD "")
          let doc : FileDoc :=
            { oid := newId, userId := userId, name := name, ftype := ty,
              isPublic := pub, parentId := req.parentId.getD (JVal.num 0), localPath := some lp }
          let q2 :=
            if ty == "image" then st.queue ++ [{ userId := userId, fileId := newId }]
            else st.queue
          (.json 201 (.node { id := newId, userId := userId, name := name,
                              ftype := ty, isPublic := pub, parentId := req.parentId.getD (JVal.num 0) }),
           { st with
             db := { st.db with files := st.db.files ++ [doc] },
             disk := (lp, content) :: st.disk,
             queue := q2 })

/-- `FilesController.postUpload` of part_000 (the earlier version): same
validation chain, folder branch, disk write and metadata insert as
part_005, with no queue at all (the module does not import Bull and the
queue is never touched). -/
def postUpload_v0 (st : AppState) (req : UploadReq) (newUuid newId : String)
    (fsError : Bool) : HResp × AppState :=
  match strVal req.token with
  | none => (unauthorized, st)
  | some t =>
  match sessionGet st.session (authKey t) with
  | none => (unauthorized, st)
  | some userId =>
  match strVal req.name with
  | none => (.json 400 (.err "Missing name"), st)
  | some name =>
  match strVal req.ftype with
  | none => (.json 400 (.err "Missing type"), st)
  | some ty =>
  if !(acceptedTypes.contains ty) then (.json 400 (.err "Missing type"), st)
  else if (strVal req.data).isNone && ty != "folder" then
    (.json 400 (.err "Missing data"), st)
  else
    match parentCheck st.db.files (req.parentId.getD (JVal.num 0)) with
    | some r => (r, st)
    | none =>
      if !(isValidObjectId userId) then
        (.crash "BSONTypeError: ObjectId on session value", st)
      else
        let pub := req.isPublic.getD false
        if ty == "folder" then
          let doc : FileDoc :=
            { oid := newId, userId := userId, name := name, ftype := ty,
              isPublic := pub, parentId := req.parentId.getD (JVal.num 0), localPath := none }
          (.json 201 (.node { id := newId, userId := userId, name := name,
                              ftype := ty, isPublic := pub, parentId := req.parentId.getD (JVal.num 0) }),
           { st with db := { st.db with files := st.db.files ++ [doc] } })
        else if fsError then (.json 500 (.err "Internal server error"), st)
        else
          let lp := folderPath ++ "/" ++ newUuid
          let content := decodeBase64 ((strVal req.data).getD "")
          let doc : FileDoc :=
            { oid := newId, userId := userId, name := name, ftype := ty,
              isPublic := pub, parentId := req.parentId.getD (JVal.num 0), localPath := some lp }
          (.json 201 (.node { id := newId, userId := userId, name := name,
                              ftype := ty, isPublic := pub, parentId := req.parentId.getD (JVal.num 0) }),
           { st with
             db := { st.db with files := st.db.files ++ [doc] },
             disk := (lp, content) :: st.disk })

/-! ## FilesController: retrieval and visibility -/

/-- `FilesController.getShow` (`GET /files/:id`): 401 without a resolving
token; then an ownership-scoped lookup `{ _id, userId }` where a throwing
`ObjectId` (on either id, both are inside the try) or a missing document
answer 404; otherwise 200 with the node representation. -/
def getShow (st : AppState) (token : Option String) (fileId : String) : HResp :=
  match strVal token with
  | none => unauthorized
  | some t =>
  match sessionGet st.session (authKey t) with
  | none => unauthorized
  | some userId =>
    if isValidObjectId fileId && isValidObjectId userId then
      match st.db.files.find? (fun f => f.oid == fileId && f.userId == userId) with
      | none => notFound
      | some f => .json 200 (.node (toRepr f))
    else notFound

/-- The filter that `FilesController.getIndex` sends to MongoDB: always
`userId`, plus `parentId` only when the raw query value is truthy
(`req.query.parentId || 0` followed by `parentId !== 0`; a query value is
a string, so the filter compares against the string, and an omitted or
empty parameter means no parent constraint at all). -/
def indexMatches (userId : String) (pfilter : Option String) (f : FileDoc) : Bool :=
  f.userId == userId &&
    (match pfilter with
     | none => true
     | some s => f.parentId == JVal.str s)

/-- `FilesController.getIndex` (`GET /files?parentId=&page=`): 401 without
a resolving token; `ObjectId(userId)` outside any try crashes on a
malformed session value; otherwise the filtered collection windowed by
`skip = page * 20`, `limit 20`, in insertion order, mapped to node
representations.  `page` is the parsed non-negative page number. -/
def getIndex (st : AppState) (token : Option String) (qParentId : Option String)
    (page : Nat) : HResp :=
  match strVal token with
  | none => unauthorized
  | some t =>
  match sessionGet st.session (authKey t) with
  | none => unauthorized
  | some userId =>
    if isValidObjectId userId then
      let pfilter := strVal qParentId
      let window :=
        ((st.db.files.filter (indexMatches userId pfilter)).drop (20 * page)).take 20
      .json 200 (.nodes (window.map toRepr))
    else .crash "BSONTypeError: ObjectId on session value"

/-- The `findOneAndUpdate` used by publish/unpublish: update the first
document matching `{ _id, userId }` to the requested visibility, returning
the new collection and the updated document (`none` when no match). -/
def setVis : List FileDoc → String → String → Bool → List FileDoc × Option FileDoc
  | [], _, _, _ => ([], none)
  | f :: rest, oid, uid, pub =>
    if f.oid == oid && f.userId == uid then
      (({ f with isPublic := pub } : FileDoc) :: rest, some { f with isPublic := pub })
    else
      let r := setVis rest oid uid pub
      (f :: r.1, r.2)

/-- `FilesController.putPublish` / `putUnpublish` (`PUT /files/:id/publish`
and `/unpublish`), sharing one embedding with the target visibility as the
`pub` argument: 401 without a resolving token; a throwing `ObjectId`
(either id, both inside the try) or no matching owned document answer 404
with the collection untouched; otherwise the atomically updated node is
returned with status 200. -/
def putVisibility (st : AppState) (token : Option String) (fileId : String)
    (pub : Bool) : HResp × AppState :=
  match strVal token with
  | none => (unauthorized, st)
  | some t =>
  match sessionGet st.session (authKey t) with
  | none => (unauthorized, st)
  | some userId =>
    if isValidObjectId fileId && isValidObjectId userId then
      match (setVis st.db.files fileId userId pub).2 with
      | none => (notFound, st)
      | some f =>
        (.json 200 (.node (toRepr f)),
         { st with db := { st.db with files := (setVis st.db.files fileId userId pub).1 } })
    else (notFound, st)

/-- The final stretch of `FilesController.getFile`: re-check that the
chosen path exists on disk, infer the content type from the *node name*
(`mime.lookup(file.name)`, falling back to application/octet-stream) and
send the raw content. -/
def sendPath (st : AppState) (f : FileDoc) (p : String) : HResp :=
  match diskGet st.disk p with
  | none => notFound
  | some content =>
    .payload ((mimeLookup f.name).getD "application/octet-stream") content

/-- `FilesController.getFile` (`GET /files/:id/data?size=`): a throwing
`ObjectId` or missing document answers 404; a private document answers the
same 404 unless the `X-Token` header resolves to the owner; folders answer
400; a missing `localPath` or absent original blob answers 404; a truthy
`size` is validated against {500, 250, 100} *only when the node type is
image* (400 on failure, 404 when the derivative `<localPath>_<size>` was
never generated); finally the selected path is read and sent with the
inferred content type. -/
def getFile (st : AppState) (fileId : String) (token : Option String)
    (size : Option String) : HResp :=
  if isValidObjectId fileId then
    match st.db.files.find? (fun f => f.oid == fileId) with
    | none => notFound
    | some f =>
      let perm : Bool :=
        if f.isPublic then true
        else
          match strVal token with
          | none => false
          | some t =>
            match sessionGet st.session (authKey t) with
            | none => false
            | some userId => f.userId == userId
      if !perm then notFound
      else if f.ftype == "folder" then .json 400 (.err "A folder doesn\x27t have content")
      else
        match f.localPath with
        | none => notFound
        | some lp =>
          if (diskGet st.disk lp).isNone then notFound
          else
            match strVal size with
            | some s =>
              if f.ftype == "image" then
                if ["500", "250", "100"].contains s then
                  match diskGet st.disk (lp ++ "_" ++ s) with
                  | some _ => sendPath st f (lp ++ "_" ++ s)
                  | none => notFound
                else .json 400 (.err "Invalid size parameter")
              else sendPath st f lp
            | none => sendPath st f lp
  else notFound

/-! ## The request-level transition system -/

/-- One API request, with all its client-supplied data and the fresh
values (ids, uuids, tokens) and filesystem outcome drawn by the
environment.  These are the operations of the service that interact with
the modeled stores; the health endpoints (`GET /status`, `GET /stats`)
only read connection flags and counts and touch no state. -/
inductive Op where
  | opNewUser (email password : Option String) (newId : String)
  | opConnect (authHeader : Option String) (newToken : String)
  | opDisconnect (token : Option String)
  | opGetMe (token : Option String)
  | opUpload (req : UploadReq) (newUuid newId : String) (fsError : Bool)
  | opIndex (token : Option String) (qParentId : Option String) (page : Nat)
  | opShow (token : Option String) (fileId : String)
  | opPublish (token : Option String) (fileId : String)
  | opUnpublish (token : Option String) (fileId : String)
  | opFileData (fileId : String) (token : Option String) (size : Option String)
deriving DecidableEq, Repr

/-- Whether an operation is the authenticate request (`GET /connect`). -/
def Op.isConnect : Op → Bool
  | .opConnect _ _ => true
  | _ => false

/-- Dispatch one request against the application state, as the Express
router does; read-only handlers leave the state unchanged.  The upload
route runs the part_005 controller (the version wired to the queue). -/
def step (st : AppState) : Op → HResp × AppState
  | .opNewUser e p i => postNew st e p i
  | .opConnect h tok => getConnect st h tok
  | .opDisconnect tok => getDisconnect st tok
  | .opGetMe tok => (usersGetMe st tok, st)
  | .opUpload req u i e => postUpload_v5 st req u i e
  | .opIndex tok qp page => (getIndex st tok qp page, st)
  | .opShow tok fid => (getShow st tok fid, st)
  | .opPublish tok fid => putVisibility st tok fid true
  | .opUnpublish tok fid => putVisibility st tok fid false
  | .opFileData fid tok size => (getFile st fid tok size, st)

/-! ## The DBClient connection flag (utils/db.mjs) -/

/-- The observable state of the `DBClient` singleton: the database handle
set by a successful `MongoClient.connect`, the `connected` boolean, and
whether the 3-second fallback timer scheduled by the failure path is
pending. -/
structure DBClientState where
  handle : Option Unit
  connected : Bool
  timerPending : Bool
deriving DecidableEq, Repr

/-- The state right after the constructor ran: no handle, `connected`
initialized to false, no timer scheduled yet. -/
def dbClientInit : DBClientState := { handle := none, connected := false, timerPending := false }

/-- The asynchronous events that resolve `initializeConnection`: the
connect promise fulfils (handle set, `connected := true`), or it rejects
(`db = null`, `connected := false`, and a 3-second `setTimeout` is
scheduled), or the scheduled timer fires — which sets `connected := true`
without touching the handle at all. -/
inductive DBEvent where
  | connectOk
  | connectFail
  | timerFire
deriving DecidableEq, Repr

/-- The transition function of the connection state machine read off
`DBClient.initializeConnection`; the timer event is a no-op unless the
failure path scheduled it. -/
def dbStep (st : DBClientState) : DBEvent → DBClientState
  | .connectOk => { handle := some (), connected := true, timerPending := st.timerPending }
  | .connectFail => { handle := none, connected := false, timerPending := true }
  | .timerFire =>
    if st.timerPending then { st with connected := true, timerPending := false }
    else st

/-- `DBClient.isAlive`: returns the raw `connected` flag. -/
def dbIsAlive (st : DBClientState) : Bool := st.connected

/-! ## Concrete states used by counterexamples and witnesses -/

/-- A valid 24-hex user id. -/
def uidA : String := "aaaaaaaaaaaaaaaaaaaaaaaa"

/-- A valid 24-hex file id (a root folder below). -/
def fidB : String := "bbbbbbbbbbbbbbbbbbbbbbbb"

/-- A valid 24-hex file id (a node under the folder below). -/
def fidC : String := "cccccccccccccccccccccccc"

/-- A session where token `tok` is active for user `uidA`. -/
def sessA : Session := [(authKey "tok", uidA, 86400)]

/-- A folder at the root, owned by `uidA`. -/
def folderB : FileDoc :=
  { oid := fidB, userId := uidA, name := "Photos", ftype := "folder",
    isPublic := false, parentId := .num 0, localPath := none }

/-- A node sitting under the folder `folderB`, owned by `uidA`. -/
def childC : FileDoc :=
  { oid := fidC, userId := uidA, name := "Sub", ftype := "folder",
    isPublic := false, parentId := .str fidB, localPath := none }

/-- State for the listing counterexample: one root folder and one node
under it, both owned by the authenticated user. -/
def stList : AppState :=
  { session := sessA, db := { users := [], files := [folderB, childC] },
    disk := [], queue := [] }

/-! ## C9 -/

/-- C9: there is an execution of `DBClient` in which the initial MongoDB
connection attempt fails and the 3-second fallback timer then flips the
`connected` flag to true although no database handle exists, so `isAlive()`
returns true without a corresponding usable connection. -/
theorem dbClient_isAlive_true_without_handle :
    dbIsAlive (dbStep (dbStep dbClientInit .connectFail) .timerFire) = true ∧
    (dbStep (dbStep dbClientInit .connectFail) .timerFire).handle = none ∧
    dbIsAlive (dbStep dbClientInit .connectFail) = false := by
  refine ⟨rfl, rfl, rfl⟩

/-! ## C2 -/

/-- A state where token `tok` is active for `uidA` and `uidA` exists in the
users collection — the fully valid input for `GET /users/me`. -/
def stMe : AppState :=
  { session := sessA,
    db := { users := [{ oid := uidA, email := "me@mail", password := sha1 "pw" }],
            files := [] },
    disk := [], queue := [] }

/-- C2: evaluation of `UsersController.getMe` (part_001) at a fully valid
request — the token is present and resolves to an existing user — shows the
handler throwing the `ReferenceError` on the unbound `redisClient`
identifier instead of answering 200 `{ id, email }`; only the
missing-token branch (401) is reachable. -/
theorem getMe_crashes_on_valid_token :
    usersGetMe stMe (some "tok") = .crash "ReferenceError: redisClient is not defined" ∧
    usersGetMe stMe none = unauthorized := by
  refine ⟨rfl, rfl⟩

/-! ## C1 -/

/-- C1 counterexample: with `parentId` omitted, `GET /files` returns every
node owned by the user — here both the root folder and the node sitting
under it — although the claim demands that only top-level nodes (parent
`0`) be returned.  `childC.parentId` is the id of the folder `folderB`. -/
theorem getIndex_root_counterexample :
    getIndex stList (some "tok") none 0 =
      .json 200 (.nodes [toRepr folderB, toRepr childC]) ∧
    childC.parentId = .str folderB.oid ∧
    folderB.ftype = "folder" := by
  exact ⟨by rfl, rfl, rfl⟩

/-- C1 (amended): for every user and page, `GET /files` returns a window of
the nodes owned by the resolved user, where the parent constraint is
applied only when a non-empty `parentId` query value is supplied (and then
compares against that string); when `parentId` is omitted or empty, every
node owned by the user is returned regardless of its parent — top-level
nodes and nodes sitting under folders alike (shown here for the unwindowed
page 0 with at most 20 owned nodes). -/
theorem getIndex_amended (st : AppState) (tok : Option String) (t userId : String)
    (qp : Option String) (page : Nat)
    (htok : strVal tok = some t)
    (hres : sessionGet st.session (authKey t) = some userId)
    (hval : isValidObjectId userId = true) :
    ∃ L, getIndex st tok qp page = .json 200 (.nodes (L.map toRepr)) ∧
      (∀ f ∈ L, f.userId = userId ∧ ∀ s, strVal qp = some s → f.parentId = JVal.str s) ∧
      (strVal qp = none → page = 0 →
        (st.db.files.filter (fun f => f.userId == userId)).length ≤ 20 →
        L = st.db.files.filter (fun f => f.userId == userId)) := by
  refine ⟨((st.db.files.filter (indexMatches userId (strVal qp))).drop (20 * page)).take 20,
    ?_, ?_, ?_⟩
  · simp [getIndex, htok, hres, hval]
  · intro f hf
    have hf2 : f ∈ st.db.files.filter (indexMatches userId (strVal qp)) :=
      List.mem_of_mem_drop (List.mem_of_mem_take hf)
    have hm : indexMatches userId (strVal qp) f = true := (List.mem_filter.mp hf2).2
    constructor
    · have h1 := hm
      simp [indexMatches] at h1
      exact h1.1
    · intro s hs
      rw [hs] at hm
      simp [indexMatches] at hm
      exact hm.2
  · intro h0 hp hlen
    subst hp
    have hfn : indexMatches userId (strVal qp) = fun f => f.userId == userId := by
      rw [h0]
      funext f
      simp [indexMatches]
    rw [hfn]
    simpa using List.take_of_length_le hlen

/-- C1 witness for the amended theorem: the concrete listing state, token
`tok`, omitted parentId, page 0. -/
theorem getIndex_amended_witness :
    ∃ L, getIndex stList (some "tok") none 0 = .json 200 (.nodes (L.map toRepr)) ∧
      (∀ f ∈ L, f.userId = uidA ∧ ∀ s, strVal none = some s → f.parentId = JVal.str s) ∧
      (strVal none = none → 0 = 0 →
        (stList.db.files.filter (fun f => f.userId == uidA)).length ≤ 20 →
        L = stList.db.files.filter (fun f => f.userId == uidA)) :=
  getIndex_amended stList (some "tok") "tok" uidA none 0 rfl rfl rfl

/-! ## C3 -/

/-- A public text file owned by `uidA`, with its blob on disk. -/
def fileTxt : FileDoc :=
  { oid := fidC, userId := uidA, name := "a.txt", ftype := "file",
    isPublic := true, parentId := .num 0, localPath := some "/tmp/files_manager/u1" }

/-- State for the data endpoint: the public text file and its blob. -/
def stData : AppState :=
  { session := [], db := { users := [], files := [fileTxt] },
    disk := [("/tmp/files_manager/u1", "hello")], queue := [] }

/-- A public image owned by `uidA`, with its blob on disk. -/
def fileImg : FileDoc :=
  { oid := fidB, userId := uidA, name := "cat.png", ftype := "image",
    isPublic := true, parentId := .num 0, localPath := some "/tmp/files_manager/u2" }

/-- State for the data endpoint: the public image and its blob. -/
def stDataImg : AppState :=
  { session := [], db := { users := [], files := [fileImg] },
    disk := [("/tmp/files_manager/u2", "rawpng")], queue := [] }

/-- C3 counterexample: an accessible non-folder node of type `file`
requested with `size=999` (outside {100, 250, 500}) is *not* rejected with
400 — the handler only validates `size` for images and serves the original
content with its inferred content type. -/
theorem getFile_size_counterexample :
    getFile stData fidC none (some "999") = .payload "text/plain" "hello" ∧
    getFile stData fidC none (some "999") ≠ .json 400 (.err "Invalid size parameter") := by
  exact ⟨by rfl, by simp [show getFile stData fidC none (some "999") =
    .payload "text/plain" "hello" from by rfl]⟩

/-- C3 (amended): a `size` query value outside {100, 250, 500} on an
accessible non-folder node is rejected with 400 only when the node's type
is `image`; for a node of type `file` the size parameter is ignored and
the original blob is served. -/
theorem getFile_size_amended (st : AppState) (fid : String) (tok size : Option String)
    (f : FileDoc) (s lp : String)
    (hfid : isValidObjectId fid = true)
    (hfind : st.db.files.find? (fun g => g.oid == fid) = some f)
    (hpub : f.isPublic = true)
    (hlp : f.localPath = some lp)
    (hdisk : (diskGet st.disk lp).isSome = true)
    (hsize : strVal size = some s)
    (hbad : (["500", "250", "100"].contains s) = false) :
    (f.ftype = "image" → getFile st fid tok size = .json 400 (.err "Invalid size parameter")) ∧
    (f.ftype = "file" →
      ∃ c, diskGet st.disk lp = some c ∧
        getFile st fid tok size =
          .payload ((mimeLookup f.name).getD "application/octet-stream") c) := by
  obtain ⟨c, hc⟩ := Option.isSome_iff_exists.mp hdisk
  have hbad2 : ¬ (s = "500" ∨ s = "250" ∨ s = "100") := by simpa using hbad
  constructor
  · intro himg
    simp [getFile, hfid, hfind, hpub, hlp, hsize, himg, hbad2, hc]
  · intro hfile
    refine ⟨c, hc, ?_⟩
    simp [getFile, hfid, hfind, hpub, hlp, hsize, hfile, hc, sendPath]

/-- C3 witness: the amended theorem applied to the concrete public image
with `size=999`, yielding the 400 rejection. -/
theorem getFile_size_amended_witness :
    getFile stDataImg fidB none (some "999") = .json 400 (.err "Invalid size parameter") :=
  (getFile_size_amended stDataImg fidB none (some "999") fileImg "999"
    "/tmp/files_manager/u2" rfl rfl rfl rfl rfl rfl rfl).1 rfl

/-! ## C4 -/

/-- C4: `GET /files/:id/data` answers the very same `404 Not found` when
the node does not exist (or the id is malformed) as when the node exists
but is private and the requester is anonymous, carries a non-resolving
token, or resolves to a user other than the owner — so the two runs are
indistinguishable and the existence of a private file is never leaked. -/
theorem getFile_private_indistinguishable
    (st1 st2 : AppState) (fid : String) (tok1 tok2 size1 size2 : Option String) (f : FileDoc)
    (h1 : isValidObjectId fid = false ∨ st1.db.files.find? (fun g => g.oid == fid) = none)
    (h2 : st2.db.files.find? (fun g => g.oid == fid) = some f)
    (hpriv : f.isPublic = false)
    (hown : ∀ t u, strVal tok2 = some t → sessionGet st2.session (authKey t) = some u →
      f.userId ≠ u) :
    getFile st1 fid tok1 size1 = .json 404 (.err "Not found") ∧
    getFile st2 fid tok2 size2 = .json 404 (.err "Not found") ∧
    getFile st1 fid tok1 size1 = getFile st2 fid tok2 size2 := by
  have r1 : getFile st1 fid tok1 size1 = notFound := by
    rcases h1 with h | h
    · simp [getFile, h]
    · cases hv : isValidObjectId fid with
      | false => simp [getFile, hv]
      | true => simp [getFile, hv, h]
  have r2 : getFile st2 fid tok2 size2 = notFound := by
    cases hv : isValidObjectId fid with
    | false => simp [getFile, hv]
    | true =>
      simp only [getFile, hv, h2, hpriv, if_true, Bool.false_eq_true, if_false]
      cases ht : strVal tok2 with
      | none => simp
      | some t =>
        cases hu : sessionGet st2.session (authKey t) with
        | none => simp [hu]
        | some u =>
          have hne : (f.userId == u) = false := by
            exact beq_eq_false_iff_ne.mpr (hown t u ht hu)
          simp [hu, hne]
  refine ⟨r1, r2, ?_⟩
  rw [r1, r2]

/-- The private twin of `fileTxt`. -/
def filePriv : FileDoc := { fileTxt with isPublic := false }

/-- A state with no files at all. -/
def stEmpty : AppState :=
  { session := [], db := { users := [], files := [] }, disk := [], queue := [] }

/-- A state holding only the private text file and its blob. -/
def stPriv : AppState :=
  { session := [], db := { users := [], files := [filePriv] },
    disk := [("/tmp/files_manager/u1", "hello")], queue := [] }

/-- C4 witness: a state with no files at all versus a state holding the
private text file, both queried anonymously for the same id, produce the
same `404 Not found`. -/
theorem getFile_private_indistinguishable_witness :
    getFile stEmpty fidC none none = .json 404 (.err "Not found") ∧
    getFile stPriv fidC none none = .json 404 (.err "Not found") ∧
    getFile stEmpty fidC none none = getFile stPriv fidC none none :=
  getFile_private_indistinguishable stEmpty stPriv fidC none none none none filePriv
    (Or.inr rfl) rfl rfl (fun t u ht _ => by simp [strVal] at ht)

/-! ## C6 -/

/-- C6: listing under a fixed non-root parent windows the matching nodes
with `skip = page * 20` and at most 20 items per page: with exactly 25
matching nodes, page 0 returns 20 items, page 1 returns 5, and page 2 and
every larger page return an empty sequence (status 200), never an error. -/
theorem getIndex_pagination (st : AppState) (tok : Option String) (t userId s : String)
    (qp : Option String) (page : Nat)
    (htok : strVal tok = some t)
    (hres : sessionGet st.session (authKey t) = some userId)
    (hval : isValidObjectId userId = true)
    (hqp : strVal qp = some s)
    (hcount : (st.db.files.filter (indexMatches userId (some s))).length = 25) :
    ∃ L : List FileDoc, getIndex st tok qp page = .json 200 (.nodes (L.map toRepr)) ∧
      L.length = (if page = 0 then 20 else if page = 1 then 5 else 0) := by
  refine ⟨((st.db.files.filter (indexMatches userId (some s))).drop (20 * page)).take 20,
    ?_, ?_⟩
  · simp [getIndex, htok, hres, hval, hqp]
  · rw [List.length_take, List.length_drop, hcount]
    rcases page with _ | _ | n
    · simp
    · simp
    · simp
      omega

/-- A document matching the fixed parent `fidB`, used 25 times over. -/
def docUnderB : FileDoc :=
  { oid := fidC, userId := uidA, name := "n", ftype := "folder",
    isPublic := false, parentId := .str fidB, localPath := none }

/-- A state whose files collection holds exactly 25 nodes owned by `uidA`
under the parent `fidB`. -/
def st25 : AppState :=
  { session := sessA, db := { users := [], files := List.replicate 25 docUnderB },
    disk := [], queue := [] }

/-- C6 witness: the pagination theorem applied at the 25-node state, page 1,
yielding a 5-item page. -/
theorem getIndex_pagination_witness :
    ∃ L : List FileDoc, getIndex st25 (some "tok") (some fidB) 1 =
        .json 200 (.nodes (L.map toRepr)) ∧
      L.length = (if 1 = 0 then 20 else if 1 = 1 then 5 else 0) :=
  getIndex_pagination st25 (some "tok") "tok" uidA fidB (some fidB) 1 rfl rfl rfl rfl
    (by rfl)

/-! ## C5 -/

/-- Deleting a key leaves the key itself absent. -/
theorem sessionGet_del_self (s : Session) (k : String) :
    sessionGet (sessionDel s k) k = none := by
  unfold sessionGet sessionDel
  cases hf : List.find? (fun e => e.1 == k) (s.filter (fun e => e.1 != k)) with
  | none => rfl
  | some e =>
    have he := List.find?_some hf
    have h2 := (List.mem_filter.mp (List.mem_of_find?_eq_some hf)).2
    simp at he h2
    exact absurd he h2

/-- Deleting some key never makes another key appear. -/
theorem sessionGet_del_of_none (s : Session) (k k2 : String)
    (h : sessionGet s k = none) : sessionGet (sessionDel s k2) k = none := by
  unfold sessionGet at h
  unfold sessionGet sessionDel
  cases hf : List.find? (fun e => e.1 == k) (s.filter (fun e => e.1 != k2)) with
  | none => rfl
  | some e =>
    exfalso
    have he := List.find?_some hf
    have hmem : e ∈ s := (List.mem_filter.mp (List.mem_of_find?_eq_some hf)).1
    cases hg : List.find? (fun e => e.1 == k) s with
    | none =>
      have := List.find?_eq_none.mp hg e hmem
      simp at he this
      exact absurd he this
    | some e2 => rw [hg] at h; simp at h

/-- The upload handler never touches the session store. -/
theorem postUpload_v5_session (st : AppState) (req : UploadReq) (u i : String) (e : Bool) :
    (postUpload_v5 st req u i e).2.session = st.session := by
  unfold postUpload_v5
  repeat' split
  all_goals rfl

/-- Publish/unpublish never touch the session store. -/
theorem putVisibility_session (st : AppState) (tok : Option String) (fid : String)
    (pub : Bool) : (putVisibility st tok fid pub).2.session = st.session := by
  unfold putVisibility
  repeat' split
  all_goals rfl

/-- User registration never touches the session store. -/
theorem postNew_session (st : AppState) (e p : Option String) (i : String) :
    (postNew st e p i).2.session = st.session := by
  unfold postNew
  repeat' split
  all_goals rfl

/-- C5: token lifecycle.  (1) A successful `GET /connect` answers 200 with
the fresh token and stores `auth_<token> -> userId` of the authenticated
user with an 86400-second TTL, so the token resolves to that user while
active; (2) after `GET /disconnect` on a token, resolving the same token
yields nothing — every handler then answers 401 Unauthorized; (3) no
request other than `GET /connect` makes an absent token active. -/
theorem token_lifecycle :
    (∀ st hdr tok u, connectUser st.db.users hdr = some u →
      (getConnect st hdr tok).1 = .json 200 (.token tok) ∧
      sessionGet (getConnect st hdr tok).2.session (authKey tok) = some u.oid ∧
      sessionTTL (getConnect st hdr tok).2.session (authKey tok) = some 86400) ∧
    (∀ st tok, tok ≠ "" →
      sessionGet ((getDisconnect st (some tok)).2).session (authKey tok) = none) ∧
    (∀ st op tok, Op.isConnect op = false →
      sessionGet st.session (authKey tok) = none →
      sessionGet (step st op).2.session (authKey tok) = none) := by
  refine ⟨?_, ?_, ?_⟩
  · intro st hdr tok u hu
    refine ⟨by simp [getConnect, hu], ?_, ?_⟩
    · simp [getConnect, hu, sessionGet, sessionSet]
    · simp [getConnect, hu, sessionTTL, sessionSet]
  · intro st tok htok
    have hsv : strVal (some tok) = some tok := by simp [strVal, htok]
    unfold getDisconnect
    rw [hsv]
    cases hg : sessionGet st.session (authKey tok) with
    | none => simp [hg]
    | some u => simp [hg, sessionGet_del_self]
  · intro st op tok hc h
    cases op with
    | opNewUser e p i => rw [step, postNew_session]; exact h
    | opConnect hdr t => simp [Op.isConnect] at hc
    | opDisconnect t =>
      simp only [step]
      unfold getDisconnect
      cases hs : strVal t with
      | none => simpa [hs] using h
      | some t2 =>
        cases hg : sessionGet st.session (authKey t2) with
        | none => simpa [hs, hg] using h
        | some u =>
          simpa [hs, hg] using sessionGet_del_of_none st.session (authKey tok) (authKey t2) h
    | opGetMe t => exact h
    | opUpload req u i e => rw [step, postUpload_v5_session]; exact h
    | opIndex t qp page => exact h
    | opShow t fid => exact h
    | opPublish t fid => rw [step, putVisibility_session]; exact h
    | opUnpublish t fid => rw [step, putVisibility_session]; exact h
    | opFileData fid t size => exact h

/-- The user found by the connect witness: its email is the decoded image
of the credentials carried by the concrete Basic header below. -/
def userW : UserDoc := { oid := uidA, email := "b64_e@x", password := sha1 "pw" }

/-- A state holding only `userW`, with an empty session store. -/
def stConn : AppState :=
  { session := [], db := { users := [userW], files := [] }, disk := [], queue := [] }

/-- C5 witness: the lifecycle theorem applied at concrete inputs — the
authenticate clause on the concrete user and header with fresh token
`tok9`, the revoke clause on the active token of `stMe`, and the
no-other-activation clause on a listing request against the empty
session. -/
theorem token_lifecycle_witness :
    ((getConnect stConn (some "Basic e@x:pw") "tok9").1 = .json 200 (.token "tok9") ∧
      sessionGet (getConnect stConn (some "Basic e@x:pw") "tok9").2.session (authKey "tok9") =
        some userW.oid ∧
      sessionTTL (getConnect stConn (some "Basic e@x:pw") "tok9").2.session (authKey "tok9") =
        some 86400) ∧
    sessionGet ((getDisconnect stMe (some "tok")).2).session (authKey "tok") = none ∧
    sessionGet (step stConn (Op.opShow (some "z") fidB)).2.session (authKey "zz") = none :=
  ⟨token_lifecycle.1 stConn (some "Basic e@x:pw") "tok9" userW (by rfl),
   token_lifecycle.2.1 stMe "tok" (by decide),
   token_lifecycle.2.2 stConn (Op.opShow (some "z") fidB) "zz" rfl rfl⟩

/-! ## C7 -/

/-- C7: for an authenticated `POST /files`, the validation rules fire in
the order name, type, data, parent, each with its distinct 400 message —
a missing name wins over every later violation, a missing or unaccepted
type is reported only once the name is present, and so on — and on every
such 400 response the full state (documents, disk, queue, sessions) is
returned unchanged. -/
theorem upload_validation_order (st : AppState) (req : UploadReq) (u i : String) (e : Bool)
    (t userId : String)
    (htok : strVal req.token = some t)
    (hres : sessionGet st.session (authKey t) = some userId) :
    (strVal req.name = none →
      postUpload_v5 st req u i e = (.json 400 (.err "Missing name"), st)) ∧
    (∀ nm, strVal req.name = some nm →
      (∀ ty, strVal req.ftype = some ty → acceptedTypes.contains ty = false) →
      postUpload_v5 st req u i e = (.json 400 (.err "Missing type"), st)) ∧
    (∀ nm ty, strVal req.name = some nm → strVal req.ftype = some ty →
      acceptedTypes.contains ty = true → ty ≠ "folder" → strVal req.data = none →
      postUpload_v5 st req u i e = (.json 400 (.err "Missing data"), st)) ∧
    (∀ nm ty, strVal req.name = some nm → strVal req.ftype = some ty →
      acceptedTypes.contains ty = true →
      ((strVal req.data).isNone && ty != "folder") = false →
      req.parentId.getD (JVal.num 0) ≠ JVal.num 0 →
      (∀ oid, objectIdOf (req.parentId.getD (JVal.num 0)) = some oid →
        st.db.files.find? (fun f => f.oid == oid) = none) →
      postUpload_v5 st req u i e = (.json 400 (.err "Parent not found"), st)) ∧
    (∀ nm ty oid parent, strVal req.name = some nm → strVal req.ftype = some ty →
      acceptedTypes.contains ty = true →
      ((strVal req.data).isNone && ty != "folder") = false →
      req.parentId.getD (JVal.num 0) ≠ JVal.num 0 →
      objectIdOf (req.parentId.getD (JVal.num 0)) = some oid →
      st.db.files.find? (fun f => f.oid == oid) = some parent →
      parent.ftype ≠ "folder" →
      postUpload_v5 st req u i e = (.json 400 (.err "Parent is not a folder"), st)) := by
  refine ⟨?_, ?_, ?_, ?_, ?_⟩
  · intro hn
    simp [postUpload_v5, htok, hres, hn]
  · intro nm hnm hbadty
    cases hty : strVal req.ftype with
    | none => simp [postUpload_v5, htok, hres, hnm, hty]
    | some ty =>
      have hnmem : ty ∉ acceptedTypes := by simpa using hbadty ty hty
      simp [postUpload_v5, htok, hres, hnm, hty, hnmem]
  · intro nm ty hnm hty hacc htf hd
    have hmem : ty ∈ acceptedTypes := by simpa using hacc
    simp [postUpload_v5, htok, hres, hnm, hty, hmem, hd, htf]
  · intro nm ty hnm hty hacc hdata hpid hfind
    have hpc : parentCheck st.db.files (req.parentId.getD (JVal.num 0)) =
        some (.json 400 (.err "Parent not found")) := by
      unfold parentCheck
      cases ho : objectIdOf (req.parentId.getD (JVal.num 0)) with
      | none => simp [hpid, ho]
      | some oid => simp [hpid, ho, hfind oid ho]
    have hmem : ty ∈ acceptedTypes := by simpa using hacc
    simp [postUpload_v5, htok, hres, hnm, hty, hmem, hdata, hpc]
  · intro nm ty oid parent hnm hty hacc hdata hpid ho hfind hpf
    have hpc : parentCheck st.db.files (req.parentId.getD (JVal.num 0)) =
        some (.json 400 (.err "Parent is not a folder")) := by
      unfold parentCheck
      simp [hpid, ho, hfind, hpf]
    have hmem : ty ∈ acceptedTypes := by simpa using hacc
    simp [postUpload_v5, htok, hres, hnm, hty, hmem, hdata, hpc]

/-- An authenticated upload request with no `name` at all (its type is even
invalid too — the name error must win). -/
def reqNoName : UploadReq :=
  { token := some "tok", name := none, ftype := some "movie",
    parentId := none, isPublic := none, data := none }

/-- C7 witness: the validation theorem's first clause at the concrete
state — 400 "Missing name" and the state handed back untouched. -/
theorem upload_validation_order_witness :
    postUpload_v5 stList reqNoName "u7" fidC false =
      (.json 400 (.err "Missing name"), stList) :=
  (upload_validation_order stList reqNoName "u7" fidC false "tok" uidA rfl rfl).1 rfl

/-! ## C8 -/

/-- The storage-reference invariant of §3: folders carry no storage
reference; file/image documents carry exactly one reference, and it points
to a blob present in the content store. -/
def storageInv (st : AppState) : Prop :=
  ∀ f ∈ st.db.files,
    (f.ftype = "folder" → f.localPath = none) ∧
    (f.ftype = "file" ∨ f.ftype = "image" →
      ∃ p, f.localPath = some p ∧ (diskGet st.disk p).isSome = true)

/-- A new disk write never removes an existing blob. -/
theorem diskGet_isSome_cons (d : List (String × String)) (q c p : String)
    (h : (diskGet d p).isSome = true) : (diskGet ((q, c) :: d) p).isSome = true := by
  unfold diskGet at h ⊢
  cases hq : (q == p) with
  | true => simp [List.find?, hq]
  | false =>
    simp only [List.find?, hq]
    exact h

/-- Every document of the updated collection produced by the atomic
find-and-update has the type and storage reference of some document of the
original collection (only `isPublic` is ever rewritten). -/
theorem setVis_mem (oid uid : String) (pub : Bool) :
    ∀ (l : List FileDoc) (g : FileDoc), g ∈ (setVis l oid uid pub).1 →
      ∃ f ∈ l, g.ftype = f.ftype ∧ g.localPath = f.localPath := by
  intro l
  induction l with
  | nil => intro g hg; simp [setVis] at hg
  | cons f rest ih =>
    intro g hg
    unfold setVis at hg
    by_cases hm : (f.oid == oid && f.userId == uid) = true
    · rw [if_pos hm] at hg
      rcases List.mem_cons.mp hg with hg | hg
      · exact ⟨f, List.mem_cons_self f rest, by rw [hg], by rw [hg]⟩
      · exact ⟨g, List.mem_cons_of_mem f hg, rfl, rfl⟩
    · rw [if_neg hm] at hg
      rcases List.mem_cons.mp hg with hg | hg
      · exact ⟨f, List.mem_cons_self f rest, by rw [hg], by rw [hg]⟩
      · obtain ⟨f2, hf2, he1, he2⟩ := ih g hg
        exact ⟨f2, List.mem_cons_of_mem f hf2, he1, he2⟩

/-- The upload handler preserves the storage-reference invariant: a folder
insert adds a document with no reference, a file/image insert writes the
blob first and records exactly that path, and every failure path leaves
the state untouched. -/
theorem postUpload_v5_storage (st : AppState) (req : UploadReq) (u i : String) (e : Bool)
    (h : storageInv st) : storageInv (postUpload_v5 st req u i e).2 := by
  unfold postUpload_v5
  split
  · exact h
  · split
    · exact h
    · split
      · exact h
      · split
        · exact h
        · rename_i ty hty
          split
          · exact h
          · split
            · exact h
            · split
              · exact h
              · split
                · exact h
                · split
                  · rename_i hfold
                    intro g hg
                    rcases List.mem_append.mp hg with hg | hg
                    · exact h g hg
                    · simp at hg
                      subst hg
                      refine ⟨fun _ => rfl, fun hor => ?_⟩
                      have hf : ty = "folder" := by simpa using hfold
                      rcases hor with h1 | h1
                      · have h2 : ty = "file" := h1
                        rw [hf] at h2
                        exact absurd h2 (by decide)
                      · have h2 : ty = "image" := h1
                        rw [hf] at h2
                        exact absurd h2 (by decide)
                  · split
                    · exact h
                    · rename_i hfold hfse
                      intro g hg
                      rcases List.mem_append.mp hg with hg | hg
                      · have hp := h g hg
                        refine ⟨hp.1, fun hor => ?_⟩
                        obtain ⟨p, hp1, hp2⟩ := hp.2 hor
                        exact ⟨p, hp1, diskGet_isSome_cons _ _ _ p hp2⟩
                      · simp at hg
                        subst hg
                        refine ⟨fun hfo => ?_, fun _ => ?_⟩
                        · exact absurd hfo (by simpa using hfold)
                        · exact ⟨folderPath ++ "/" ++ u, rfl, by simp [diskGet, List.find?]⟩

/-- Publish/unpublish preserve the storage-reference invariant: the atomic
update rewrites only the visibility flag and the disk is untouched. -/
theorem putVisibility_storage (st : AppState) (tok : Option String) (fid : String)
    (pub : Bool) (h : storageInv st) : storageInv (putVisibility st tok fid pub).2 := by
  unfold putVisibility
  split
  · exact h
  · split
    · exact h
    · rename_i userId hres
      split
      · split
        · exact h
        · intro g hg
          obtain ⟨f2, hf2, he1, he2⟩ := setVis_mem fid userId pub st.db.files g hg
          have hp := h f2 hf2
          rw [he1, he2]
          exact hp
      · exact h

/-- C8: the storage-reference invariant — folders never have a storage
reference, file/image documents always have exactly one, pointing at the
blob written before the metadata insert — is established by `POST /files`
and preserved by every operation of the service (publish, unpublish,
list, get, and all the rest). -/
theorem storage_reference_invariant (st : AppState) (op : Op) (h : storageInv st) :
    storageInv (step st op).2 := by
  cases op with
  | opNewUser e p i =>
    simp only [step]
    unfold postNew
    repeat' split
    all_goals exact h
  | opConnect hdr tok =>
    simp only [step]
    unfold getConnect
    repeat' split
    all_goals exact h
  | opDisconnect t =>
    simp only [step]
    unfold getDisconnect
    repeat' split
    all_goals exact h
  | opGetMe t => exact h
  | opUpload req u i e => exact postUpload_v5_storage st req u i e h
  | opIndex t qp page => exact h
  | opShow t fid => exact h
  | opPublish t fid => exact putVisibility_storage st t fid true h
  | opUnpublish t fid => exact putVisibility_storage st t fid false h
  | opFileData fid t size => exact h

/-- An authenticated image upload request targeting the folder `fidB`. -/
def reqImg : UploadReq :=
  { token := some "tok", name := some "cat.png", ftype := some "image",
    parentId := some (.str fidB), isPublic := none, data := some "QUJD" }

/-- A state holding the root folder `folderB` with an active token. -/
def stUp : AppState :=
  { session := sessA, db := { users := [], files := [folderB] }, disk := [], queue := [] }

/-- C8 witness: the invariant-preservation theorem applied at the concrete
image upload into `stUp`, whose initial collection satisfies the
invariant. -/
theorem storage_reference_invariant_witness :
    storageInv (step stUp (Op.opUpload reqImg "u8" fidC false)).2 :=
  storage_reference_invariant stUp (Op.opUpload reqImg "u8" fidC false)
    (by
      intro f hf
      simp [stUp] at hf
      subst hf
      exact ⟨fun _ => rfl, fun hor => by rcases hor with h1 | h1 <;> simp [folderB] at h1⟩)

/-! ## C10 -/

/-- The owner of a node created as an image by a given upload request, read
off the success path common to both versions of the handler: `some userId`
exactly when every validation passes, the node type is `image`, and the
disk write does not fail — the situation in which part_005 enqueues a job
and part_000 does not. -/
def uploadImageSucceeds (st : AppState) (req : UploadReq) (e : Bool) : Option String :=
  match strVal req.token with
  | none => none
  | some t =>
  match sessionGet st.session (authKey t) with
  | none => none
  | some userId =>
  match strVal req.name with
  | none => none
  | some _ =>
  match strVal req.ftype with
  | none => none
  | some ty =>
  if !(acceptedTypes.contains ty) then none
  else if (strVal req.data).isNone && ty != "folder" then none
  else
    match parentCheck st.db.files (req.parentId.getD (JVal.num 0)) with
    | some _ => none
    | none =>
      if !(isValidObjectId userId) then none
      else if ty == "folder" then none
      else if e then none
      else if ty == "image" then some userId
      else none

/-- C10: for every request and state, the two versions of the upload
handler (part_000 and part_005) return the same HTTP response and leave
identical documents, disk and session state; part_000 never touches the
queue, and part_005 differs only by additionally enqueueing the single job
`{ userId, fileId }` exactly when the created node's type is image. -/
theorem upload_versions_equivalent (st : AppState) (req : UploadReq) (u i : String)
    (e : Bool) :
    (postUpload_v0 st req u i e).1 = (postUpload_v5 st req u i e).1 ∧
    (postUpload_v0 st req u i e).2.db = (postUpload_v5 st req u i e).2.db ∧
    (postUpload_v0 st req u i e).2.disk = (postUpload_v5 st req u i e).2.disk ∧
    (postUpload_v0 st req u i e).2.session = (postUpload_v5 st req u i e).2.session ∧
    (postUpload_v0 st req u i e).2.queue = st.queue ∧
    (postUpload_v5 st req u i e).2.queue =
      st.queue ++ (match uploadImageSucceeds st req e with
                   | some uid => [{ userId := uid, fileId := i }]
                   | none => []) := by
  unfold postUpload_v0 postUpload_v5 uploadImageSucceeds
  repeat' split
  all_goals simp_all

end FilesManager
